import Mathlib

/-!
Verification development for the gitdiagram backend core:
`app/routers/generate.py` (pipeline orchestration, validation, link
rewriting) and `app/services/ollama_service.py` (LLM backend access:
temperature table and the streaming line decoder).

Modelling conventions:
* Python strings are Lean `String` (sequences of unicode code points);
  character-level work is done on `String.data : List Char`.
* The regex-based link rewriter (`re.sub` with pattern
  `click ([^\s"]+)\s+"([^"]+)"`) is embedded as an explicit left-to-right
  scanner `subClickF`; since all character classes in the pattern are
  disjoint from their successors, the regex engine's greedy matching is
  deterministic and the scanner reproduces it exactly.  `\s` is modelled
  as ASCII whitespace.
* The async generator `event_generator` is embedded as a pure function
  from the outcomes of its external calls (the GitHub metadata fetch and
  the three LLM streams) to the list of events it yields.  An LLM stream
  outcome is the list of chunks received plus an optional exception
  raised after those chunks.
* The streaming line decoder is embedded as a function parametric in the
  JSON parse outcome of a stripped line (`JsonLine`): a decode failure
  (the line is skipped), a valid-JSON non-object (whose `data.get` call
  then raises an uncaught `AttributeError`, terminating the stream), or
  a decoded object carrying its `response` field.
-/

/-- ASCII whitespace, modelling the regex class `\s` and `str.strip()`. -/
def isSpaceChar (c : Char) : Bool :=
  c = ' ' || c = '\t' || c = '\n' || c = '\r' || c = '\x0b' || c = '\x0c'

/-- The single-quote character (code point 39). -/
def squote : Char := '\x27'

/-- Python `str.strip(chars)`: drop characters from `set` at both ends. -/
def pyStrip (cs : List Char) (set : List Char) : List Char :=
  ((cs.dropWhile (fun c => set.contains c)).reverse.dropWhile
    (fun c => set.contains c)).reverse

/-- Python `path.split("/")[-1]`: the substring after the last slash. -/
def lastSegment (cs : List Char) : List Char :=
  (cs.reverse.takeWhile (fun c => c != '/')).reverse

/-- The replacement function `replace_path` from `process_click_events`
(`generate.py` lines 83-96): strip surrounding quote characters from the
path group, classify file vs directory by a dot in the last segment, and
rebuild the click directive with the absolute GitHub URL. -/
def replace_path (username repo branch : String) (g1 g2 : List Char) :
    List Char :=
  let path := pyStrip g2 ['"', squote]
  let is_file := (lastSegment path).contains '.'
  let base_url := "https://github.com/".data ++ username.data ++ '/' :: repo.data
  let path_type := if is_file then "blob".data else "tree".data
  let full_url := base_url ++ '/' :: path_type ++ '/' :: branch.data ++ '/' :: path
  "click ".data ++ g1 ++ ' ' :: '"' :: (full_url ++ ['"'])

/-- Matching the regex `click ([^\s"]+)\s+"([^"]+)"` at the head of the
input.  Returns the two capture groups and the remainder after the match.
All three repetitions are over character classes disjoint from the
character that must follow them, so greedy matching without backtracking
(take the maximal run) is exact. -/
def tryClick (l : List Char) : Option (List Char × List Char × List Char) :=
  match l with
  | 'c' :: 'l' :: 'i' :: 'c' :: 'k' :: ' ' :: t =>
    let g1 := t.takeWhile (fun c => !(isSpaceChar c) && c != '"')
    let t1 := t.dropWhile (fun c => !(isSpaceChar c) && c != '"')
    if g1.isEmpty then none
    else
      let ws := t1.takeWhile isSpaceChar
      let t2 := t1.dropWhile isSpaceChar
      if ws.isEmpty then none
      else
        match t2 with
        | q :: t3 =>
          if q = '"' then
            let g2 := t3.takeWhile (fun c => c != '"')
            let t4 := t3.dropWhile (fun c => c != '"')
            if g2.isEmpty then none
            else
              match t4 with
              | q2 :: rest => if q2 = '"' then some (g1, g2, rest) else none
              | [] => none
          else none
        | [] => none
  | _ => none

/-- The `re.sub` scan: at each position try the pattern; on a match emit
the replacement and continue after the matched text, otherwise keep the
character and move on.  Every step consumes at least one input character,
so fuel equal to the input length (supplied by `process_click_events`)
never runs out. -/
def subClickF (username repo branch : String) : Nat → List Char → List Char
  | 0, l => l
  | _ + 1, [] => []
  | fuel + 1, c :: cs =>
    match tryClick (c :: cs) with
    | some (g1, g2, rest) =>
      replace_path username repo branch g1 g2 ++
        subClickF username repo branch fuel rest
    | none => c :: subClickF username repo branch fuel cs

/-- `process_click_events` (`generate.py` lines 77-100). -/
def process_click_events (diagram : String) (username repo branch : String) :
    String :=
  ⟨subClickF username repo branch diagram.data.length diagram.data⟩

/-- `"BAD_INSTRUCTIONS" in explanation` (`generate.py` line 164):
substring containment. -/
def containsBadInstructions (s : String) : Bool :=
  decide ("BAD_INSTRUCTIONS".data <:+: s.data)

/-- The request body (`ApiRequest`, `generate.py` lines 49-54). -/
structure ApiRequest where
  username : String
  repo : String
  instructions : String := ""
  api_key : Option String := none
  github_pat : Option String := none
deriving DecidableEq

/-- Result of `get_cached_github_data` (`generate.py` lines 34-46). -/
structure GithubData where
  default_branch : String
  file_tree : String
  readme : String
deriving DecidableEq

/-- Outcome of one `call_o3_api_stream` iteration as observed by the
orchestrator: the chunks yielded, then optionally an exception raised
after them (mid-stream or before the first chunk). -/
structure StreamResult where
  chunks : List String
  error : Option String := none
deriving DecidableEq

/-- The three pipeline phases. -/
inductive Phase where
  | explanation
  | mapping
  | diagram
deriving DecidableEq

/-- The events yielded by `event_generator`, one constructor per yield
site: `started` (line 130), `phaseBegan` (lines 149/169/181),
`phaseChunk` (lines 162/178/194), `phaseAborted` (the fixed-message
error record of line 165), `completed` (line 202), `failed` (the
exception error record of line 206). -/
inductive Event where
  | started
  | phaseBegan (phase : Phase)
  | phaseChunk (phase : Phase) (text : String)
  | phaseAborted (reason : String)
  | completed (diagram : String)
  | failed (message : String)
deriving DecidableEq

/-- The phase an event belongs to, if any. -/
def phaseOf : Event → Option Phase
  | .phaseBegan p => some p
  | .phaseChunk p _ => some p
  | _ => none

/-- Terminal events: abort, completion, failure. -/
def isTerminal : Event → Bool
  | .phaseAborted _ => true
  | .completed _ => true
  | .failed _ => true
  | _ => false

/-- `event_generator` (`generate.py` lines 119-206) as a pure function of
the outcomes of its external calls.  The GitHub metadata fetch happens
before the `started` yield; any exception anywhere is caught by the
handler at line 204 and converted to a single error record, so a stream
that raises after some chunks contributes those chunks followed by
`failed`.  After a completed phase-1 stream, the sentinel check at line
164 may abort before any phase-2 event. -/
def event_generator (github : Except String GithubData)
    (phase1 phase2 phase3 : StreamResult) (body : ApiRequest) : List Event :=
  match github with
  | .error e => [.failed e]
  | .ok gh =>
    .started :: .phaseBegan .explanation ::
      (phase1.chunks.map (Event.phaseChunk .explanation) ++
        match phase1.error with
        | some e => [.failed e]
        | none =>
          let explanation := String.join phase1.chunks
          if containsBadInstructions explanation then
            [.phaseAborted "Invalid or unclear instructions provided"]
          else
            .phaseBegan .mapping ::
              (phase2.chunks.map (Event.phaseChunk .mapping) ++
                match phase2.error with
                | some e => [.failed e]
                | none =>
                  .phaseBegan .diagram ::
                    (phase3.chunks.map (Event.phaseChunk .diagram) ++
                      match phase3.error with
                      | some e => [.failed e]
                      | none =>
                        [.completed (process_click_events
                          (String.join phase3.chunks)
                          body.username body.repo gh.default_branch)])))

/-- The reserved example-repository denylist (`generate.py` lines 110-116). -/
def reservedRepos : List String :=
  ["fastapi", "streamlit", "flask", "api-analytics", "monkeytype"]

/-- `generate_stream` (`generate.py` lines 103-212): the two validation
checks run synchronously; only when both pass is the event stream
started. -/
def generate_stream (body : ApiRequest) (github : Except String GithubData)
    (phase1 phase2 phase3 : StreamResult) : Except String (List Event) :=
  if body.instructions.length > 1000 then
    .error "Instructions exceed maximum length of 1000 characters"
  else if reservedRepos.contains body.repo then
    .error "Example repos cannot be regenerated"
  else
    .ok (event_generator github phase1 phase2 phase3 body)

/-- The temperature table of `call_o3_api` (`ollama_service.py` lines
36-40): `{"low": 0.1, "medium": 0.5, "high": 0.9}.get(effort, 0.1)`. -/
def call_o3_api_temperature (reasoning_effort : String) : ℚ :=
  if reasoning_effort = "low" then 1/10
  else if reasoning_effort = "medium" then 5/10
  else if reasoning_effort = "high" then 9/10
  else 1/10

/-- The identical temperature table of `call_o3_api_stream`
(`ollama_service.py` lines 90-94). -/
def call_o3_api_stream_temperature (reasoning_effort : String) : ℚ :=
  if reasoning_effort = "low" then 1/10
  else if reasoning_effort = "medium" then 5/10
  else if reasoning_effort = "high" then 9/10
  else 1/10

/-- Python `str.strip()` with no argument: trim ASCII whitespace. -/
def stripWs (s : String) : String :=
  ⟨((s.data.dropWhile isSpaceChar).reverse.dropWhile isSpaceChar).reverse⟩

/-- Outcome of `json.loads` on a stripped transport line, as consumed by
lines 126-127 of `ollama_service.py`: `decodeError` models `json.loads`
raising `JSONDecodeError` (caught at line 130, line skipped);
`nonObject` models valid JSON that is not an object (`42`, `null`,
`[1]`) — `data.get` then raises `AttributeError`, which the
`except json.JSONDecodeError` clause does not catch; `object response`
models a decoded object whose `response` field (defaulted to `""` by
`data.get("response", "")`) is `response`. -/
inductive JsonLine where
  | decodeError
  | nonObject
  | object (response : String)
deriving DecidableEq

/-- The line loop of `call_o3_api_stream` (`ollama_service.py` lines
117-132), parametric in the JSON parse of a line.  Returns the yielded
fragments and whether the loop raised: each line is stripped, empty
lines and undecodable lines are skipped, an object line yields its
content when non-empty, and a valid-JSON non-object line raises an
uncaught `AttributeError`, terminating the loop with no further
yields. -/
def call_o3_api_stream_run (parse : String → JsonLine) :
    List String → List String × Bool
  | [] => ([], false)
  | line :: rest =>
    let l := stripWs line
    if l.isEmpty then call_o3_api_stream_run parse rest
    else
      match parse l with
      | .decodeError => call_o3_api_stream_run parse rest
      | .nonObject => ([], true)
      | .object content =>
        if content.isEmpty then call_o3_api_stream_run parse rest
        else (content :: (call_o3_api_stream_run parse rest).1,
          (call_o3_api_stream_run parse rest).2)

/-- The fragment a line contributes when it does not raise: `some c`
exactly when the stripped line is non-empty, decodes to an object, and
has non-empty content `c`. -/
def lineContent (parse : String → JsonLine) (line : String) :
    Option String :=
  let l := stripWs line
  if l.isEmpty then none
  else
    match parse l with
    | .object content => if content.isEmpty then none else some content
    | _ => none

/-- Whether a line kills the stream: non-empty after stripping and
decoding to valid JSON that is not an object. -/
def lineRaises (parse : String → JsonLine) (line : String) : Bool :=
  let l := stripWs line
  if l.isEmpty then false
  else
    match parse l with
    | .nonObject => true
    | _ => false

/-- The parse stub used by the C8 counterexample and witness. -/
def c8ParseExample : String → JsonLine :=
  fun l => if l = "rec" then .object "hi"
    else if l = "empty" then .object ""
    else if l = "42" then .nonObject
    else .decodeError

example : process_click_events "click A \"a/b/c.tar.gz\"" "o" "r" "m" =
    "click A \"https://github.com/o/r/blob/m/a/b/c.tar.gz\"" := by decide

example : process_click_events "click A \"a/b/c\"" "o" "r" "m" =
    "click A \"https://github.com/o/r/tree/m/a/b/c\"" := by decide

example : process_click_events "graph TD\n  A --> B" "o" "r" "m" =
    "graph TD\n  A --> B" := by decide

/-! ## Theorems -/

/-- Claim C9: in both the single-shot and streaming operations the
reasoning-effort argument maps to temperature by the fixed table
low → 0.1, medium → 0.5, high → 0.9, and any other value maps to 0.1. -/
theorem c9_effort_temperature_table (e : String) :
    call_o3_api_temperature "low" = 1/10 ∧
    call_o3_api_temperature "medium" = 5/10 ∧
    call_o3_api_temperature "high" = 9/10 ∧
    call_o3_api_stream_temperature "low" = 1/10 ∧
    call_o3_api_stream_temperature "medium" = 5/10 ∧
    call_o3_api_stream_temperature "high" = 9/10 ∧
    (e ≠ "low" → e ≠ "medium" → e ≠ "high" →
      call_o3_api_temperature e = 1/10 ∧
      call_o3_api_stream_temperature e = 1/10) := by
  refine ⟨by simp [call_o3_api_temperature],
    by simp [call_o3_api_temperature],
    by simp [call_o3_api_temperature],
    by simp [call_o3_api_stream_temperature],
    by simp [call_o3_api_stream_temperature],
    by simp [call_o3_api_stream_temperature],
    fun h1 h2 h3 => ?_⟩
  unfold call_o3_api_temperature call_o3_api_stream_temperature
  rw [if_neg h1, if_neg h2, if_neg h3]
  exact ⟨rfl, rfl⟩

/-- Witness for C9 at the unrecognized effort value "turbo". -/
theorem c9_effort_temperature_table_witness :
    call_o3_api_temperature "turbo" = 1/10 ∧
    call_o3_api_stream_temperature "turbo" = 1/10 :=
  (c9_effort_temperature_table "turbo").2.2.2.2.2.2
    (by decide) (by decide) (by decide)

/-- A request naming a reserved repository always gets a validation
error (either the length error or the reserved-repos error). -/
theorem generate_stream_reserved_rejects (body : ApiRequest)
    (github : Except String GithubData) (p1 p2 p3 : StreamResult)
    (h : body.repo ∈ reservedRepos) :
    ∃ msg, generate_stream body github p1 p2 p3 = .error msg := by
  unfold generate_stream
  by_cases h1 : body.instructions.length > 1000
  · exact ⟨_, by rw [if_pos h1]⟩
  · rw [if_neg h1, if_pos (by simpa [List.contains] using h)]
    exact ⟨_, rfl⟩

/-- Claim C2: a request with instructions longer than 1000 characters,
or with a reserved repository name, gets a synchronous validation error
and no event of the stream is emitted (the result is never `.ok`). -/
theorem c2_validation_rejects (body : ApiRequest)
    (github : Except String GithubData) (p1 p2 p3 : StreamResult) :
    (body.instructions.length > 1000 →
      generate_stream body github p1 p2 p3 =
        .error "Instructions exceed maximum length of 1000 characters") ∧
    (body.repo ∈ reservedRepos →
      ∃ msg, generate_stream body github p1 p2 p3 = .error msg) ∧
    ((body.instructions.length > 1000 ∨ body.repo ∈ reservedRepos) →
      ∀ evs, generate_stream body github p1 p2 p3 ≠ .ok evs) := by
  refine ⟨fun h => ?_,
    fun h => generate_stream_reserved_rejects body github p1 p2 p3 h,
    fun h evs => ?_⟩
  · unfold generate_stream
    rw [if_pos h]
  · rcases h with h | h
    · unfold generate_stream
      rw [if_pos h]
      exact Except.noConfusion
    · rcases generate_stream_reserved_rejects body github p1 p2 p3 h with
        ⟨msg, hm⟩
      rw [hm]
      exact Except.noConfusion

/-- Witness for C2: an over-long instruction string is rejected. -/
theorem c2_validation_rejects_witness :
    generate_stream ⟨"o", "r", String.mk (List.replicate 1001 'a'), none, none⟩
        (.ok ⟨"main", "", ""⟩) ⟨[], none⟩ ⟨[], none⟩ ⟨[], none⟩ =
      .error "Instructions exceed maximum length of 1000 characters" :=
  (c2_validation_rejects _ _ _ _ _).1 (by
    show 1000 < (List.replicate 1001 'a').length
    rw [List.length_replicate]
    omega)

/-- Claim C10: the reserved-repository check looks only at the `repo`
field: any request naming a reserved repo is rejected with a validation
error whatever the owner, and for a repo outside the denylist the
reserved check never fires (the only possible rejection is the length
check, and with short instructions the stream is returned). -/
theorem c10_reserved_check_repo_only (body : ApiRequest)
    (github : Except String GithubData) (p1 p2 p3 : StreamResult) :
    (body.repo ∈ reservedRepos →
      ∃ msg, generate_stream body github p1 p2 p3 = .error msg) ∧
    (body.repo ∉ reservedRepos →
      generate_stream body github p1 p2 p3 ≠
        .error "Example repos cannot be regenerated" ∧
      (body.instructions.length ≤ 1000 →
        generate_stream body github p1 p2 p3 =
          .ok (event_generator github p1 p2 p3 body))) := by
  refine ⟨fun h => generate_stream_reserved_rejects body github p1 p2 p3 h,
    fun h => ⟨?_, fun hlen => ?_⟩⟩ <;> unfold generate_stream
  · by_cases h1 : body.instructions.length > 1000
    · rw [if_pos h1]; intro hc; injection hc with hc
      exact absurd hc (by decide)
    · rw [if_neg h1, if_neg (by simpa [List.contains] using h)]
      exact Except.noConfusion
  · rw [if_neg (by omega), if_neg (by simpa [List.contains] using h)]

/-- Witness for C10: "fastapi" is rejected for any owner; a repo outside
the denylist with short instructions streams. -/
theorem c10_reserved_check_repo_only_witness :
    (∃ msg, generate_stream ⟨"someowner", "fastapi", "", none, none⟩
        (.ok ⟨"main", "", ""⟩) ⟨[], none⟩ ⟨[], none⟩ ⟨[], none⟩ =
      .error msg) ∧
    generate_stream ⟨"someowner", "myrepo", "", none, none⟩
        (.ok ⟨"main", "", ""⟩) ⟨[], none⟩ ⟨[], none⟩ ⟨[], none⟩ =
      .ok (event_generator (.ok ⟨"main", "", ""⟩)
        ⟨[], none⟩ ⟨[], none⟩ ⟨[], none⟩ ⟨"someowner", "myrepo", "", none, none⟩) :=
  ⟨(c10_reserved_check_repo_only _ _ _ _ _).1 (by decide),
    ((c10_reserved_check_repo_only _ _ _ _ _).2 (by decide)).2 (by decide)⟩

/-- A line that neither raises nor yields (empty after stripping, a
decode error, or an object with empty content) passes the decoder's
step through unchanged. -/
theorem c8_skip_step {parse : String → JsonLine} {line : String}
    {rest : List String}
    (hrun : call_o3_api_stream_run parse (line :: rest) =
      call_o3_api_stream_run parse rest)
    (hlc : lineContent parse line = none)
    (hlr : lineRaises parse line = false)
    (ih1 : (∀ l ∈ rest, lineRaises parse l = false) →
      call_o3_api_stream_run parse rest =
        (rest.filterMap (lineContent parse), false))
    (ih2 : ∀ pre bad post, rest = pre ++ bad :: post →
      (∀ l ∈ pre, lineRaises parse l = false) →
      lineRaises parse bad = true →
      call_o3_api_stream_run parse rest =
        (pre.filterMap (lineContent parse), true))
    (ih3 : ∀ f ∈ (call_o3_api_stream_run parse rest).1, f ≠ "") :
    ((∀ l ∈ line :: rest, lineRaises parse l = false) →
      call_o3_api_stream_run parse (line :: rest) =
        ((line :: rest).filterMap (lineContent parse), false)) ∧
    (∀ pre bad post, line :: rest = pre ++ bad :: post →
      (∀ l ∈ pre, lineRaises parse l = false) →
      lineRaises parse bad = true →
      call_o3_api_stream_run parse (line :: rest) =
        (pre.filterMap (lineContent parse), true)) ∧
    (∀ f ∈ (call_o3_api_stream_run parse (line :: rest)).1, f ≠ "") := by
  refine ⟨fun hall => ?_, fun pre bad post heq hpre hbad => ?_, ?_⟩
  · rw [hrun, ih1 (fun l hl => hall l (List.mem_cons_of_mem _ hl)),
      List.filterMap_cons, hlc]
  · cases pre with
    | nil =>
      simp only [List.nil_append] at heq
      injection heq with ha hb
      subst ha
      exact absurd hbad (by simp [hlr])
    | cons p pre2 =>
      injection heq with ha hb
      subst ha
      rw [hrun, ih2 pre2 bad post hb
        (fun l hl => hpre l (List.mem_cons_of_mem _ hl)) hbad,
        List.filterMap_cons, hlc]
  · simp only [hrun]
    exact ih3

/-- Counterexample to C8 as stated: the line `42` is valid JSON but not
an object, so `data.get("response", "")` raises `AttributeError`, which
the `except json.JSONDecodeError` clause does not catch: the stream
terminates with an error and the following well-formed record's
non-empty content `hi` is never yielded, although the claim demands the
fragment sequence `["hi"]` with no error raised. -/
theorem c8_counterexample_nonobject_line :
    call_o3_api_stream_run c8ParseExample ["42", "rec"] = ([], true) ∧
    ["42", "rec"].filterMap (lineContent c8ParseExample) = ["hi"] ∧
    ([] : List String) ≠ ["hi"] :=
  ⟨rfl, rfl, by decide⟩

/-- Claim C8 (amended): empty lines, lines failing JSON decoding, and
object records with empty content are skipped without error; as long as
no line is valid JSON of a non-object shape, the yielded fragments are
exactly the non-empty contents of the decoded records in order, all
non-empty.  A valid-JSON non-object line, however, raises an uncaught
`AttributeError`: the stream terminates there, having yielded exactly
the contributions of the lines before it. -/
theorem c8_stream_line_decoder (parse : String → JsonLine)
    (lines : List String) :
    ((∀ line ∈ lines, lineRaises parse line = false) →
      call_o3_api_stream_run parse lines =
        (lines.filterMap (lineContent parse), false)) ∧
    (∀ pre bad post, lines = pre ++ bad :: post →
      (∀ line ∈ pre, lineRaises parse line = false) →
      lineRaises parse bad = true →
      call_o3_api_stream_run parse lines =
        (pre.filterMap (lineContent parse), true)) ∧
    (∀ f ∈ (call_o3_api_stream_run parse lines).1, f ≠ "") := by
  induction lines with
  | nil =>
    refine ⟨fun _ => rfl, fun pre bad post heq _ _ => absurd heq (by simp),
      by simp [call_o3_api_stream_run]⟩
  | cons line rest ih =>
    obtain ⟨ih1, ih2, ih3⟩ := ih
    by_cases h1 : (stripWs line).isEmpty
    · exact c8_skip_step (by rw [call_o3_api_stream_run]; simp [h1])
        (by simp [lineContent, h1]) (by simp [lineRaises, h1]) ih1 ih2 ih3
    · rcases h2 : parse (stripWs line) with _ | _ | content
      · exact c8_skip_step (by rw [call_o3_api_stream_run]; simp [h1, h2])
          (by simp [lineContent, h1, h2]) (by simp [lineRaises, h1, h2])
          ih1 ih2 ih3
      · have hrun : call_o3_api_stream_run parse (line :: rest) =
            ([], true) := by
          rw [call_o3_api_stream_run]
          simp [h1, h2]
        have hlr : lineRaises parse line = true := by
          simp [lineRaises, h1, h2]
        refine ⟨fun hall =>
          absurd (hall line (List.mem_cons_self _ _)) (by simp [hlr]),
          fun pre bad post heq hpre hbad => ?_, by simp [hrun]⟩
        cases pre with
        | nil =>
          simp only [List.nil_append] at heq
          injection heq with ha hb
        | cons p pre2 =>
          injection heq with ha hb
          exact absurd (hpre p (List.mem_cons_self _ _))
            (by rw [← ha]; simp [hlr])
      · by_cases h3 : content.isEmpty
        · exact c8_skip_step
            (by rw [call_o3_api_stream_run]; simp [h1, h2, h3])
            (by simp [lineContent, h1, h2, h3])
            (by simp [lineRaises, h1, h2]) ih1 ih2 ih3
        · have hrun : call_o3_api_stream_run parse (line :: rest) =
              (content :: (call_o3_api_stream_run parse rest).1,
                (call_o3_api_stream_run parse rest).2) := by
            rw [call_o3_api_stream_run]
            simp [h1, h2, h3]
          have hlc : lineContent parse line = some content := by
            simp [lineContent, h1, h2, h3]
          have hlr : lineRaises parse line = false := by
            simp [lineRaises, h1, h2]
          refine ⟨fun hall => ?_, fun pre bad post heq hpre hbad => ?_, ?_⟩
          · rw [hrun, ih1 (fun l hl => hall l (List.mem_cons_of_mem _ hl))]
            simp [List.filterMap_cons, hlc]
          · cases pre with
            | nil =>
              simp only [List.nil_append] at heq
              injection heq with ha hb
              subst ha
              exact absurd hbad (by simp [hlr])
            | cons p pre2 =>
              injection heq with ha hb
              subst ha
              rw [hrun, ih2 pre2 bad post hb
                (fun l hl => hpre l (List.mem_cons_of_mem _ hl)) hbad]
              simp [List.filterMap_cons, hlc]
          · simp only [hrun]
            intro f hf
            rcases List.mem_cons.mp hf with rfl | hf
            · exact fun hc => h3 (by rw [hc]; decide)
            · exact ih3 f hf

/-- Witness for C8 (amended): with the non-object line `42` in fifth
position the stream raises after yielding exactly the contributions of
the four lines before it; without it the whole list is decoded. -/
theorem c8_stream_line_decoder_witness :
    call_o3_api_stream_run c8ParseExample
        ["", "junk", "empty", " rec ", "42", "ignored"] =
      (["", "junk", "empty", " rec "].filterMap (lineContent c8ParseExample),
        true) ∧
    call_o3_api_stream_run c8ParseExample ["", "junk", "empty", " rec "] =
      (["", "junk", "empty", " rec "].filterMap (lineContent c8ParseExample),
        false) :=
  ⟨(c8_stream_line_decoder c8ParseExample
        ["", "junk", "empty", " rec ", "42", "ignored"]).2.1
      ["", "junk", "empty", " rec "] "42" ["ignored"] rfl
      (by decide) (by decide),
    (c8_stream_line_decoder c8ParseExample
        ["", "junk", "empty", " rec "]).1 (by decide)⟩

/-- Claim C1: when phase 1 completes and its concatenated output contains
the sentinel `BAD_INSTRUCTIONS`, the event sequence is exactly Started,
PhaseBegan(explanation), the explanation chunks, then the terminal
`phaseAborted` event (a constructor distinct from `failed`), and no
mapping- or diagram-phase event occurs. -/
theorem c1_sentinel_aborts (gh : GithubData) (p1 p2 p3 : StreamResult)
    (body : ApiRequest) (h1 : p1.error = none)
    (h2 : containsBadInstructions (String.join p1.chunks) = true) :
    event_generator (.ok gh) p1 p2 p3 body =
      Event.started :: Event.phaseBegan .explanation ::
        (p1.chunks.map (Event.phaseChunk .explanation) ++
          [Event.phaseAborted "Invalid or unclear instructions provided"]) ∧
    ∀ ev ∈ event_generator (.ok gh) p1 p2 p3 body,
      phaseOf ev ≠ some Phase.mapping ∧ phaseOf ev ≠ some Phase.diagram := by
  have he : event_generator (.ok gh) p1 p2 p3 body =
      Event.started :: Event.phaseBegan .explanation ::
        (p1.chunks.map (Event.phaseChunk .explanation) ++
          [Event.phaseAborted "Invalid or unclear instructions provided"]) := by
    simp [event_generator, h1, h2]
  refine ⟨he, fun ev hev => ?_⟩
  rw [he] at hev
  rcases List.mem_cons.mp hev with rfl | hev
  · exact ⟨by simp [phaseOf], by simp [phaseOf]⟩
  rcases List.mem_cons.mp hev with rfl | hev
  · exact ⟨by simp [phaseOf], by simp [phaseOf]⟩
  rcases List.mem_append.mp hev with hev | hev
  · rcases List.mem_map.mp hev with ⟨t, _, rfl⟩
    exact ⟨by simp [phaseOf], by simp [phaseOf]⟩
  · rcases List.mem_singleton.mp hev with rfl
    exact ⟨by simp [phaseOf], by simp [phaseOf]⟩

/-- Witness for C1: the sentinel spans two chunks; the stream aborts
after the explanation chunks. -/
theorem c1_sentinel_aborts_witness :
    event_generator (.ok ⟨"main", "t", "r"⟩)
        ⟨["BAD_", "INSTRUCTIONS"], none⟩ ⟨[], none⟩ ⟨[], none⟩
        ⟨"o", "r", "", none, none⟩ =
      Event.started :: Event.phaseBegan .explanation ::
        (["BAD_", "INSTRUCTIONS"].map (Event.phaseChunk .explanation) ++
          [Event.phaseAborted "Invalid or unclear instructions provided"]) :=
  (c1_sentinel_aborts ⟨"main", "t", "r"⟩ ⟨["BAD_", "INSTRUCTIONS"], none⟩
    ⟨[], none⟩ ⟨[], none⟩ ⟨"o", "r", "", none, none⟩ rfl (by decide)).1

/-- Claim C5: when phase 1 completes without the sentinel and the phase-2
stream raises after some chunks, the event sequence is exactly Started,
PhaseBegan(explanation), the explanation chunks, PhaseBegan(mapping),
the mapping chunks received before the failure, then the terminal
`failed` event; no diagram-phase event occurs and nothing already
emitted is removed. -/
theorem c5_phase2_failure (gh : GithubData) (p1 p2 p3 : StreamResult)
    (body : ApiRequest) (msg : String) (h1 : p1.error = none)
    (h2 : containsBadInstructions (String.join p1.chunks) = false)
    (h3 : p2.error = some msg) :
    event_generator (.ok gh) p1 p2 p3 body =
      Event.started :: Event.phaseBegan .explanation ::
        (p1.chunks.map (Event.phaseChunk .explanation) ++
          Event.phaseBegan .mapping ::
            (p2.chunks.map (Event.phaseChunk .mapping) ++
              [Event.failed msg])) ∧
    ∀ ev ∈ event_generator (.ok gh) p1 p2 p3 body,
      phaseOf ev ≠ some Phase.diagram := by
  have he : event_generator (.ok gh) p1 p2 p3 body =
      Event.started :: Event.phaseBegan .explanation ::
        (p1.chunks.map (Event.phaseChunk .explanation) ++
          Event.phaseBegan .mapping ::
            (p2.chunks.map (Event.phaseChunk .mapping) ++
              [Event.failed msg])) := by
    simp [event_generator, h1, h2, h3]
  refine ⟨he, fun ev hev => ?_⟩
  rw [he] at hev
  rcases List.mem_cons.mp hev with rfl | hev
  · simp [phaseOf]
  rcases List.mem_cons.mp hev with rfl | hev
  · simp [phaseOf]
  rcases List.mem_append.mp hev with hev | hev
  · rcases List.mem_map.mp hev with ⟨t, _, rfl⟩
    simp [phaseOf]
  rcases List.mem_cons.mp hev with rfl | hev
  · simp [phaseOf]
  rcases List.mem_append.mp hev with hev | hev
  · rcases List.mem_map.mp hev with ⟨t, _, rfl⟩
    simp [phaseOf]
  · rcases List.mem_singleton.mp hev with rfl
    simp [phaseOf]

/-- Witness for C5: a concrete phase-2 failure after one mapping chunk. -/
theorem c5_phase2_failure_witness :
    event_generator (.ok ⟨"main", "t", "r"⟩)
        ⟨["all good"], none⟩ ⟨["partial"], some "boom"⟩ ⟨[], none⟩
        ⟨"o", "r", "", none, none⟩ =
      Event.started :: Event.phaseBegan .explanation ::
        (["all good"].map (Event.phaseChunk .explanation) ++
          Event.phaseBegan .mapping ::
            (["partial"].map (Event.phaseChunk .mapping) ++
              [Event.failed "boom"])) :=
  (c5_phase2_failure ⟨"main", "t", "r"⟩ ⟨["all good"], none⟩
    ⟨["partial"], some "boom"⟩ ⟨[], none⟩ ⟨"o", "r", "", none, none⟩
    "boom" rfl (by decide) rfl).1

/-- A well-formed post-validation trace: exactly one `started` at the
head, a middle free of `started` and of terminal events, and exactly one
terminal event at the end with nothing after it. -/
def WellFormedTrace (l : List Event) : Prop :=
  ∃ mid last, l = Event.started :: (mid ++ [last]) ∧
    Event.started ∉ mid ∧ last ≠ Event.started ∧
    isTerminal last = true ∧ ∀ x ∈ mid, isTerminal x = false

theorem wft_build {mid : List Event} {last : Event}
    (h1 : ∀ x ∈ mid, x ≠ Event.started ∧ isTerminal x = false)
    (h2 : last ≠ Event.started) (h3 : isTerminal last = true) :
    WellFormedTrace (Event.started :: (mid ++ [last])) :=
  ⟨mid, last, rfl, fun hm => (h1 _ hm).1 rfl, h2, h3,
    fun x hx => (h1 x hx).2⟩

theorem midOk_chunks (p : Phase) (xs : List String) :
    ∀ x ∈ List.map (Event.phaseChunk p) xs,
      x ≠ Event.started ∧ isTerminal x = false := by
  intro x hx
  rcases List.mem_map.mp hx with ⟨t, _, rfl⟩
  exact ⟨fun h => Event.noConfusion h, rfl⟩

theorem midOk_cons {e : Event} {l : List Event}
    (h1 : e ≠ Event.started ∧ isTerminal e = false)
    (h2 : ∀ x ∈ l, x ≠ Event.started ∧ isTerminal x = false) :
    ∀ x ∈ e :: l, x ≠ Event.started ∧ isTerminal x = false := by
  intro x hx
  rcases List.mem_cons.mp hx with rfl | hx
  · exact h1
  · exact h2 x hx

theorem midOk_append {l1 l2 : List Event}
    (h1 : ∀ x ∈ l1, x ≠ Event.started ∧ isTerminal x = false)
    (h2 : ∀ x ∈ l2, x ≠ Event.started ∧ isTerminal x = false) :
    ∀ x ∈ l1 ++ l2, x ≠ Event.started ∧ isTerminal x = false := by
  intro x hx
  rcases List.mem_append.mp hx with hx | hx
  · exact h1 x hx
  · exact h2 x hx

theorem filterMap_phaseOf_chunks (p : Phase) (xs : List String) :
    (List.map (Event.phaseChunk p) xs).filterMap phaseOf =
      List.replicate xs.length p := by
  induction xs with
  | nil => rfl
  | cons t ts ih => simp [phaseOf, List.replicate_succ, ih]

theorem filterMap_phaseOf_comp_chunks (p : Phase) (xs : List String) :
    List.filterMap (phaseOf ∘ Event.phaseChunk p) xs =
      List.replicate xs.length p := by
  induction xs with
  | nil => rfl
  | cons t ts ih => simp [phaseOf, List.replicate_succ, ih]

/-- Counterexample to C6 as stated: for a request passing validation
whose repository-metadata fetch raises, the stream is the single event
`failed` — it does not begin with `started`. -/
theorem c6_counterexample_no_started :
    generate_stream ⟨"o", "r", "", none, none⟩ (.error "GitHub API error")
        ⟨[], none⟩ ⟨[], none⟩ ⟨[], none⟩ =
      .ok [Event.failed "GitHub API error"] ∧
    (event_generator (.error "GitHub API error")
        ⟨[], none⟩ ⟨[], none⟩ ⟨[], none⟩ ⟨"o", "r", "", none, none⟩).head? ≠
      some Event.started := by
  refine ⟨rfl, ?_⟩
  intro h
  rw [event_generator] at h
  simp at h

/-- Claim C6 (amended): once the repository-metadata fetch succeeds, the
sequence begins with exactly one `started`, phases appear in the fixed
order explanation, mapping, diagram, and it ends with exactly one
terminal event with nothing after it; when the metadata fetch raises,
the sequence is instead the single terminal event `failed` (the
`started` record is only yielded after the fetch). -/
theorem c6_event_sequence_shape (github : Except String GithubData)
    (p1 p2 p3 : StreamResult) (body : ApiRequest) :
    (∀ e, github = .error e →
      event_generator github p1 p2 p3 body = [Event.failed e]) ∧
    (∀ gh, github = .ok gh →
      WellFormedTrace (event_generator github p1 p2 p3 body)) ∧
    (∃ a b c, (event_generator github p1 p2 p3 body).filterMap phaseOf =
      List.replicate a Phase.explanation ++ List.replicate b Phase.mapping ++
        List.replicate c Phase.diagram) := by
  cases github with
  | error e =>
    refine ⟨fun e' he' => ?_, fun gh hgh => Except.noConfusion hgh, 0, 0, 0, ?_⟩
    · injection he' with he'
      rw [he']
      simp [event_generator]
    · simp [event_generator, phaseOf]
  | ok gh =>
    rcases hp1 : p1.error with _ | m
    · by_cases hb : containsBadInstructions (String.join p1.chunks)
      · have he : event_generator (.ok gh) p1 p2 p3 body =
            Event.started ::
              ((Event.phaseBegan .explanation ::
                p1.chunks.map (Event.phaseChunk .explanation)) ++
                [Event.phaseAborted "Invalid or unclear instructions provided"]) := by
          simp [event_generator, hp1, hb]
        refine ⟨fun e' he' => Except.noConfusion he', fun _ _ => ?_, ?_⟩
        · rw [he]
          exact wft_build
            (midOk_cons ⟨fun h => Event.noConfusion h, rfl⟩
              (midOk_chunks _ _))
            (fun h => Event.noConfusion h) rfl
        · refine ⟨p1.chunks.length + 1, 0, 0, ?_⟩
          rw [he]
          simp [phaseOf, List.filterMap_cons, List.filterMap_append,
            filterMap_phaseOf_chunks, filterMap_phaseOf_comp_chunks,
            List.replicate_succ]
      · rcases hp2 : p2.error with _ | m2
        · rcases hp3 : p3.error with _ | m3
          · -- full success
            have he : event_generator (.ok gh) p1 p2 p3 body =
                Event.started ::
                  ((Event.phaseBegan .explanation ::
                    (p1.chunks.map (Event.phaseChunk .explanation) ++
                      Event.phaseBegan .mapping ::
                        (p2.chunks.map (Event.phaseChunk .mapping) ++
                          Event.phaseBegan .diagram ::
                            p3.chunks.map (Event.phaseChunk .diagram)))) ++
                    [Event.completed (process_click_events
                      (String.join p3.chunks) body.username body.repo
                      gh.default_branch)]) := by
              simp [event_generator, hp1, hb, hp2, hp3]
            refine ⟨fun e' he' => Except.noConfusion he', fun _ _ => ?_, ?_⟩
            · rw [he]
              exact wft_build
                (midOk_cons ⟨fun h => Event.noConfusion h, rfl⟩
                  (midOk_append (midOk_chunks _ _)
                    (midOk_cons ⟨fun h => Event.noConfusion h, rfl⟩
                      (midOk_append (midOk_chunks _ _)
                        (midOk_cons ⟨fun h => Event.noConfusion h, rfl⟩
                          (midOk_chunks _ _))))))
                (fun h => Event.noConfusion h) rfl
            · refine ⟨p1.chunks.length + 1, p2.chunks.length + 1,
                p3.chunks.length + 1, ?_⟩
              rw [he]
              simp [phaseOf, List.filterMap_cons, List.filterMap_append,
                filterMap_phaseOf_chunks, filterMap_phaseOf_comp_chunks,
                List.replicate_succ]
          · -- phase 3 raises
            have he : event_generator (.ok gh) p1 p2 p3 body =
                Event.started ::
                  ((Event.phaseBegan .explanation ::
                    (p1.chunks.map (Event.phaseChunk .explanation) ++
                      Event.phaseBegan .mapping ::
                        (p2.chunks.map (Event.phaseChunk .mapping) ++
                          Event.phaseBegan .diagram ::
                            p3.chunks.map (Event.phaseChunk .diagram)))) ++
                    [Event.failed m3]) := by
              simp [event_generator, hp1, hb, hp2, hp3]
            refine ⟨fun e' he' => Except.noConfusion he', fun _ _ => ?_, ?_⟩
            · rw [he]
              exact wft_build
                (midOk_cons ⟨fun h => Event.noConfusion h, rfl⟩
                  (midOk_append (midOk_chunks _ _)
                    (midOk_cons ⟨fun h => Event.noConfusion h, rfl⟩
                      (midOk_append (midOk_chunks _ _)
                        (midOk_cons ⟨fun h => Event.noConfusion h, rfl⟩
                          (midOk_chunks _ _))))))
                (fun h => Event.noConfusion h) rfl
            · refine ⟨p1.chunks.length + 1, p2.chunks.length + 1,
                p3.chunks.length + 1, ?_⟩
              rw [he]
              simp [phaseOf, List.filterMap_cons, List.filterMap_append,
                filterMap_phaseOf_chunks, filterMap_phaseOf_comp_chunks,
                List.replicate_succ]
        · -- phase 2 raises
          have he : event_generator (.ok gh) p1 p2 p3 body =
              Event.started ::
                ((Event.phaseBegan .explanation ::
                  (p1.chunks.map (Event.phaseChunk .explanation) ++
                    Event.phaseBegan .mapping ::
                      p2.chunks.map (Event.phaseChunk .mapping))) ++
                  [Event.failed m2]) := by
            simp [event_generator, hp1, hb, hp2]
          refine ⟨fun e' he' => Except.noConfusion he', fun _ _ => ?_, ?_⟩
          · rw [he]
            exact wft_build
              (midOk_cons ⟨fun h => Event.noConfusion h, rfl⟩
                (midOk_append (midOk_chunks _ _)
                  (midOk_cons ⟨fun h => Event.noConfusion h, rfl⟩
                    (midOk_chunks _ _))))
              (fun h => Event.noConfusion h) rfl
          · refine ⟨p1.chunks.length + 1, p2.chunks.length + 1, 0, ?_⟩
            rw [he]
            simp [phaseOf, List.filterMap_cons, List.filterMap_append,
              filterMap_phaseOf_chunks, filterMap_phaseOf_comp_chunks,
              List.replicate_succ]
    · -- phase 1 raises
      have he : event_generator (.ok gh) p1 p2 p3 body =
          Event.started ::
            ((Event.phaseBegan .explanation ::
              p1.chunks.map (Event.phaseChunk .explanation)) ++
              [Event.failed m]) := by
        simp [event_generator, hp1]
      refine ⟨fun e' he' => Except.noConfusion he', fun _ _ => ?_, ?_⟩
      · rw [he]
        exact wft_build
          (midOk_cons ⟨fun h => Event.noConfusion h, rfl⟩
            (midOk_chunks _ _))
          (fun h => Event.noConfusion h) rfl
      · refine ⟨p1.chunks.length + 1, 0, 0, ?_⟩
        rw [he]
        simp [phaseOf, List.filterMap_cons, List.filterMap_append,
          filterMap_phaseOf_chunks, filterMap_phaseOf_comp_chunks,
          List.replicate_succ]

/-- Witness for C6 (amended): a concrete successful trace is well
formed. -/
theorem c6_event_sequence_shape_witness :
    WellFormedTrace (event_generator (.ok ⟨"main", "t", "r"⟩)
      ⟨["exp"], none⟩ ⟨["map"], none⟩ ⟨["graph TD"], none⟩
      ⟨"o", "r", "", none, none⟩) :=
  (c6_event_sequence_shape (.ok ⟨"main", "t", "r"⟩)
    ⟨["exp"], none⟩ ⟨["map"], none⟩ ⟨["graph TD"], none⟩
    ⟨"o", "r", "", none, none⟩).2.1 ⟨"main", "t", "r"⟩ rfl

/-! ### Link-rewriter lemmas -/

theorem takeWhile_append_cons {p : Char → Bool} {l1 : List Char} {c : Char}
    {l2 : List Char} (h1 : ∀ x ∈ l1, p x = true) (h2 : p c = false) :
    (l1 ++ c :: l2).takeWhile p = l1 := by
  induction l1 with
  | nil => simp [List.takeWhile_cons, h2]
  | cons a l ih =>
    have ha := h1 a (List.mem_cons_self a l)
    simp [List.takeWhile_cons, ha,
      ih (fun x hx => h1 x (List.mem_cons_of_mem a hx))]

theorem dropWhile_append_cons {p : Char → Bool} {l1 : List Char} {c : Char}
    {l2 : List Char} (h1 : ∀ x ∈ l1, p x = true) (h2 : p c = false) :
    (l1 ++ c :: l2).dropWhile p = c :: l2 := by
  induction l1 with
  | nil => simp [List.dropWhile_cons, h2]
  | cons a l ih =>
    have ha := h1 a (List.mem_cons_self a l)
    simp [List.dropWhile_cons, ha,
      ih (fun x hx => h1 x (List.mem_cons_of_mem a hx))]

theorem dropWhile_eq_self_of {p : Char → Bool} {l : List Char}
    (h : ∀ c ∈ l, p c = false) : l.dropWhile p = l := by
  cases l with
  | nil => rfl
  | cons a l => simp [List.dropWhile_cons, h a (List.mem_cons_self a l)]

theorem pyStrip_eq_self {cs set : List Char}
    (h : ∀ c ∈ cs, set.contains c = false) : pyStrip cs set = cs := by
  unfold pyStrip
  rw [dropWhile_eq_self_of h,
    dropWhile_eq_self_of (fun c hc => h c (List.mem_reverse.mp hc)),
    List.reverse_reverse]

/-- The regex matches the canonical double-quoted directive exactly,
capturing the identifier and the path. -/
theorem tryClick_directive {idL pathL : List Char} (hid : idL ≠ [])
    (hid2 : ∀ c ∈ idL, isSpaceChar c = false ∧ c ≠ '"')
    (hpath : pathL ≠ []) (hpath2 : ∀ c ∈ pathL, c ≠ '"') :
    tryClick ('c' :: 'l' :: 'i' :: 'c' :: 'k' :: ' ' ::
        (idL ++ ' ' :: '"' :: (pathL ++ ['"']))) = some (idL, pathL, []) := by
  have hp1 : ∀ x ∈ idL, (!(isSpaceChar x) && x != '"') = true := by
    intro x hx
    simp [(hid2 x hx).1, (hid2 x hx).2]
  have hq1 : (!(isSpaceChar ' ') && ' ' != '"') = false := by decide
  have e1 : (idL ++ ' ' :: '"' :: (pathL ++ ['"'])).takeWhile
      (fun c => !(isSpaceChar c) && c != '"') = idL :=
    takeWhile_append_cons hp1 hq1
  have e2 : (idL ++ ' ' :: '"' :: (pathL ++ ['"'])).dropWhile
      (fun c => !(isSpaceChar c) && c != '"') = ' ' :: '"' :: (pathL ++ ['"']) :=
    dropWhile_append_cons hp1 hq1
  have hp2 : ∀ x ∈ pathL, (x != '"') = true := by
    intro x hx
    simp [hpath2 x hx]
  have hq2 : (('"' : Char) != '"') = false := by decide
  have e3 : (pathL ++ '"' :: ([] : List Char)).takeWhile
      (fun c => c != '"') = pathL :=
    takeWhile_append_cons hp2 hq2
  have e4 : (pathL ++ '"' :: ([] : List Char)).dropWhile
      (fun c => c != '"') = '"' :: ([] : List Char) :=
    dropWhile_append_cons hp2 hq2
  have e5 : (' ' :: '"' :: (pathL ++ ['"'])).takeWhile isSpaceChar = [' '] := by
    rw [List.takeWhile_cons, if_pos (by decide), List.takeWhile_cons,
      if_neg (by decide)]
  have e6 : (' ' :: '"' :: (pathL ++ ['"'])).dropWhile isSpaceChar =
      '"' :: (pathL ++ ['"']) := by
    rw [List.dropWhile_cons, if_pos (by decide), List.dropWhile_cons,
      if_neg (by decide)]
  rw [tryClick]
  rw [e1, e2, if_neg (by simp [hid])]
  rw [e5, e6, if_neg (by simp)]
  simp [e3, e4, hpath]

theorem subClickF_nil (u r b : String) (fuel : Nat) :
    subClickF u r b fuel [] = [] := by
  cases fuel <;> rfl

theorem str_data_append (a b : String) : (a ++ b).data = a.data ++ b.data :=
  rfl

theorem str_ext {a b : String} (h : a.data = b.data) : a = b := by
  cases a
  cases b
  exact congrArg String.mk h

/-- On input that is exactly one double-quoted click directive, the scan
fires once and produces the replacement. -/
theorem subClickF_directive (u r b : String) {idL pathL : List Char}
    (hid : idL ≠ []) (hid2 : ∀ c ∈ idL, isSpaceChar c = false ∧ c ≠ '"')
    (hpath : pathL ≠ []) (hpath2 : ∀ c ∈ pathL, c ≠ '"')
    (fuel : Nat) (hfuel : 1 ≤ fuel) :
    subClickF u r b fuel ('c' :: 'l' :: 'i' :: 'c' :: 'k' :: ' ' ::
        (idL ++ ' ' :: '"' :: (pathL ++ ['"']))) =
      replace_path u r b idL pathL := by
  cases fuel with
  | zero => omega
  | succ f =>
    rw [subClickF, tryClick_directive hid hid2 hpath hpath2]
    simp [subClickF_nil]

/-- Claim C3: every matched click directive's quoted path is rewritten to
`https://github.com/owner/repo/<blob-or-tree>/branch/path`, with "blob"
exactly when the final path segment contains a dot; in particular
`a/b/c.tar.gz` is classified blob and `a/b/c` tree. -/
theorem c3_link_rewriter_url (u r b id path : String)
    (hid : id.data ≠ [])
    (hid2 : ∀ c ∈ id.data, isSpaceChar c = false ∧ c ≠ '"')
    (hpath : path.data ≠ [])
    (hpath2 : ∀ c ∈ path.data, c ≠ '"' ∧ c ≠ squote) :
    process_click_events ("click " ++ id ++ " \"" ++ path ++ "\"") u r b =
      "click " ++ id ++ " \"https://github.com/" ++ u ++ "/" ++ r ++ "/" ++
        (if (lastSegment path.data).contains '.' then "blob" else "tree") ++
        "/" ++ b ++ "/" ++ path ++ "\"" ∧
    process_click_events "click A \"a/b/c.tar.gz\"" "o" "r" "m" =
      "click A \"https://github.com/o/r/blob/m/a/b/c.tar.gz\"" ∧
    process_click_events "click A \"a/b/c\"" "o" "r" "m" =
      "click A \"https://github.com/o/r/tree/m/a/b/c\"" := by
  refine ⟨?_, by decide, by decide⟩
  have d1 : "click ".data = ['c', 'l', 'i', 'c', 'k', ' '] := rfl
  have d2 : " \"".data = [' ', '"'] := rfl
  have d7 : "\"".data = ['"'] := rfl
  have hdata : ("click " ++ id ++ " \"" ++ path ++ "\"").data =
      'c' :: 'l' :: 'i' :: 'c' :: 'k' :: ' ' ::
        (id.data ++ ' ' :: '"' :: (path.data ++ ['"'])) := by
    simp [str_data_append, d1, d2, d7]
  have hstrip : pyStrip path.data ['"', squote] = path.data :=
    pyStrip_eq_self (fun c hc => by
      simp [List.contains, (hpath2 c hc).1, (hpath2 c hc).2])
  apply str_ext
  rw [process_click_events, hdata]
  rw [subClickF_directive u r b hid hid2 hpath
    (fun c hc => (hpath2 c hc).1) _
    (by rw [List.length_cons]; exact Nat.succ_le_succ (Nat.zero_le _))]
  show replace_path u r b id.data path.data = _
  rw [replace_path]
  simp only [hstrip]
  have d3 : "https://github.com/".data =
      ['h', 't', 't', 'p', 's', ':', '/', '/', 'g', 'i', 't', 'h', 'u', 'b',
        '.', 'c', 'o', 'm', '/'] := rfl
  have d4 : " \"https://github.com/".data =
      [' ', '"', 'h', 't', 't', 'p', 's', ':', '/', '/', 'g', 'i', 't', 'h',
        'u', 'b', '.', 'c', 'o', 'm', '/'] := rfl
  have d5 : "/".data = ['/'] := rfl
  simp [str_data_append, d1, d3, d4, d5, d7, apply_ite String.data,
    show "blob".data = ['b', 'l', 'o', 'b'] from rfl,
    show "tree".data = ['t', 'r', 'e', 'e'] from rfl]

/-- Witness for C3 at a concrete identifier and path. -/
theorem c3_link_rewriter_url_witness :
    process_click_events ("click " ++ "A" ++ " \"" ++ "a/b/x.py" ++ "\"")
        "o" "r" "m" =
      "click " ++ "A" ++ " \"https://github.com/" ++ "o" ++ "/" ++ "r" ++
        "/" ++
        (if (lastSegment ("a/b/x.py" : String).data).contains '.' then "blob"
          else "tree") ++
        "/" ++ "m" ++ "/" ++ "a/b/x.py" ++ "\"" :=
  (c3_link_rewriter_url "o" "r" "m" "A" "a/b/x.py" (by decide) (by decide)
    (by decide) (by decide)).1

/-- A single-quote string, built without quote characters in source. -/
def squoteStr : String := String.mk [squote]

/-- The regex rejects a single-quoted path: after the identifier and the
whitespace run, the next character must be a double quote. -/
theorem tryClick_single_quote {idL pathL : List Char} (hid : idL ≠ [])
    (hid2 : ∀ c ∈ idL, isSpaceChar c = false ∧ c ≠ '"') :
    tryClick ('c' :: 'l' :: 'i' :: 'c' :: 'k' :: ' ' ::
        (idL ++ ' ' :: squote :: pathL)) = none := by
  have hp1 : ∀ x ∈ idL, (!(isSpaceChar x) && x != '"') = true := by
    intro x hx
    simp [(hid2 x hx).1, (hid2 x hx).2]
  have hq1 : (!(isSpaceChar ' ') && ' ' != '"') = false := by decide
  have e1 : (idL ++ ' ' :: squote :: pathL).takeWhile
      (fun c => !(isSpaceChar c) && c != '"') = idL :=
    takeWhile_append_cons hp1 hq1
  have e2 : (idL ++ ' ' :: squote :: pathL).dropWhile
      (fun c => !(isSpaceChar c) && c != '"') = ' ' :: squote :: pathL :=
    dropWhile_append_cons hp1 hq1
  have e5 : (' ' :: squote :: pathL).takeWhile isSpaceChar = [' '] := by
    rw [List.takeWhile_cons, if_pos (by decide), List.takeWhile_cons,
      if_neg (by decide)]
  have e6 : (' ' :: squote :: pathL).dropWhile isSpaceChar =
      squote :: pathL := by
    rw [List.dropWhile_cons, if_pos (by decide), List.dropWhile_cons,
      if_neg (by decide)]
  rw [tryClick]
  rw [e1, e2, if_neg (by simp [hid])]
  rw [e5, e6, if_neg (by simp)]
  simp
  intro h
  exact absurd h (by decide)

/-- Counterexample to C4 as stated: a single-quoted directive is left
completely unchanged by the rewriter, while the same directive with
double quotes is rewritten. -/
theorem c4_counterexample_single_quote_unmatched :
    process_click_events ("click A " ++ squoteStr ++ "x.py" ++ squoteStr)
        "o" "r" "m" =
      "click A " ++ squoteStr ++ "x.py" ++ squoteStr ∧
    process_click_events "click A \"x.py\"" "o" "r" "m" =
      "click A \"https://github.com/o/r/blob/m/x.py\"" := by
  exact ⟨by decide, by decide⟩

/-- Claim C4 (amended): the rewriter's pattern accepts only double
quotes.  A directive `click <id> '<path>'` with single quotes is not
matched at the directive position (the matcher requires a double quote
right after the whitespace run), while the double-quoted form is matched
and captured. -/
theorem c4_quote_handling (id path : String) (hid : id.data ≠ [])
    (hid2 : ∀ c ∈ id.data, isSpaceChar c = false ∧ c ≠ '"') :
    tryClick (("click " ++ id ++ " " ++ squoteStr ++ path ++
      squoteStr).data) = none ∧
    (path.data ≠ [] → (∀ c ∈ path.data, c ≠ '"') →
      tryClick (("click " ++ id ++ " \"" ++ path ++ "\"").data) =
        some (id.data, path.data, [])) := by
  constructor
  · have hdata : ("click " ++ id ++ " " ++ squoteStr ++ path ++
        squoteStr).data =
        'c' :: 'l' :: 'i' :: 'c' :: 'k' :: ' ' ::
          (id.data ++ ' ' :: squote :: (path.data ++ [squote])) := by
      simp [str_data_append, show "click ".data = ['c', 'l', 'i', 'c', 'k', ' ']
        from rfl, show " ".data = [' '] from rfl, squoteStr]
    rw [hdata]
    exact tryClick_single_quote hid hid2
  · intro hpath hpath2
    have hdata : ("click " ++ id ++ " \"" ++ path ++ "\"").data =
        'c' :: 'l' :: 'i' :: 'c' :: 'k' :: ' ' ::
          (id.data ++ ' ' :: '"' :: (path.data ++ ['"'])) := by
      simp [str_data_append, show "click ".data = ['c', 'l', 'i', 'c', 'k', ' ']
        from rfl, show " \"".data = [' ', '"'] from rfl,
        show "\"".data = ['"'] from rfl]
    rw [hdata]
    exact tryClick_directive hid hid2 hpath hpath2

/-- Witness for C4 (amended) at a concrete identifier and path. -/
theorem c4_quote_handling_witness :
    tryClick (("click " ++ "A" ++ " " ++ squoteStr ++ "x.py" ++
      squoteStr).data) = none ∧
    tryClick (("click " ++ "A" ++ " \"" ++ "x.py" ++ "\"").data) =
      some (("A" : String).data, ("x.py" : String).data, []) :=
  ⟨(c4_quote_handling "A" "x.py" (by decide) (by decide)).1,
    (c4_quote_handling "A" "x.py" (by decide) (by decide)).2
      (by decide) (by decide)⟩

/-- Whether the click pattern matches anywhere in the text (at any start
position), mirroring the `re.sub` scan positions. -/
def hasClickMatch : List Char → Bool
  | [] => false
  | c :: cs => (tryClick (c :: cs)).isSome || hasClickMatch cs

/-- Whether the click pattern matches at no position starting inside
`l1` (with `rest` as the continuation of the text). -/
def clickFree : List Char → List Char → Bool
  | [], _ => true
  | c :: cs, rest => !(tryClick (c :: cs ++ rest)).isSome && clickFree cs rest

theorem subClickF_eq_self_of_noMatch (u r b : String) (fuel : Nat) :
    ∀ l : List Char, hasClickMatch l = false → subClickF u r b fuel l = l := by
  induction fuel with
  | zero => intro l _; rfl
  | succ f ih =>
    intro l hl
    cases l with
    | nil => rfl
    | cons c cs =>
      rw [hasClickMatch, Bool.or_eq_false_iff] at hl
      have hnone : tryClick (c :: cs) = none :=
        Option.not_isSome_iff_eq_none.mp (by simp [hl.1])
      rw [subClickF, hnone]
      show c :: subClickF u r b f cs = c :: cs
      rw [ih cs hl.2]

/-- Claim C7: the Link Rewriter is the identity on any text in which the
pattern matches nowhere, and more generally any match-free prefix of the
text is passed through untouched while scanning continues on the rest. -/
theorem c7_identity_on_nonmatching (u r b : String) (s : String) :
    (hasClickMatch s.data = false → process_click_events s u r b = s) ∧
    ∀ l1 l2 : List Char, ∀ fuel : Nat, clickFree l1 l2 = true →
      subClickF u r b fuel (l1 ++ l2) =
        l1 ++ subClickF u r b (fuel - l1.length) l2 := by
  constructor
  · intro h
    rw [process_click_events, subClickF_eq_self_of_noMatch u r b _ _ h]
  · intro l1
    induction l1 with
    | nil => intro l2 fuel _; simp
    | cons c cs ih =>
      intro l2 fuel hcf
      rw [clickFree, Bool.and_eq_true] at hcf
      have hnone : tryClick (c :: (cs ++ l2)) = none :=
        Option.not_isSome_iff_eq_none.mp (by simpa using hcf.1)
      cases fuel with
      | zero => simp [subClickF, Nat.zero_sub]
      | succ f =>
        show subClickF u r b (f + 1) (c :: (cs ++ l2)) =
          c :: (cs ++ subClickF u r b (f + 1 - (c :: cs).length) l2)
        rw [subClickF, hnone]
        show c :: subClickF u r b f (cs ++ l2) = _
        rw [ih l2 f hcf.2, List.length_cons, Nat.succ_sub_succ]

/-- Witness for C7: a diagram with no click directive is returned
unchanged. -/
theorem c7_identity_on_nonmatching_witness :
    process_click_events "graph TD; A-->B" "o" "r" "m" =
      "graph TD; A-->B" :=
  (c7_identity_on_nonmatching "o" "r" "m" "graph TD; A-->B").1 (by decide)
